import Mathlib

set_option maxRecDepth 8000

/-
Verification of the VibeTracer call recorder and its companions against the
repository's specification.

Shallow embedding of:
* `vibetracer/database/models.py` - the three SQLModel tables and the
  truncation event listeners;
* `vibetracer/trace/tracer.py` - `info_decorator`: Function registration at
  decoration time and the per-invocation `wrapper`;
* `vibetracer/database/dumper.py` - `Dumper.dump_llm_text`;
* `vibetracer/command/run.py` - `VibeFinder._inside_project`.

The recorder's mutable world (the SQLite store plus one thread's call stack)
is threaded explicitly as a state value.  Wall-clock time is abstracted to a
logical clock that advances at every store interaction; Python values are
abstracted to what the recorder inspects about them (`inspect.isclass`,
`__class__.__name__`, and their serialized text).
-/

namespace VibeTracer

/-- Row of the `function` table (`models.py`, class `Function`). -/
structure FunctionRow where
  id : Nat
  module : String
  qualname : String
  filename : String
  lineno : Nat
  signature : String
  annotations : Option String := none
  defaults : Option String := none
  kwdefaults : Option String := none
  closure_vars : Option String := none
  source_code : Option String := none
deriving Repr, DecidableEq

/-- Row of the `call` table (`models.py`, class `Call`). -/
structure CallRow where
  id : Nat
  function_id : Nat
  parent_call_id : Option Nat
  timestamp : Nat
  duration_ms : Option Nat
  thread_id : Nat
  is_coroutine : Bool
  method_type : String
  class_name : Option String
  return_value : Option String
  exception_type : Option String
  exception_message : Option String
  tb : Option String
deriving Repr, DecidableEq

/-- Row of the `argument` table (`models.py`, class `Argument`). -/
structure ArgumentRow where
  id : Nat
  call_id : Nat
  name : String
  value : String
deriving Repr, DecidableEq

/-- `models.py` `_truncate_value_before_insert` / `_truncate_return_before_insert`
    (and the matching `before_update` listeners): values longer than 1000
    characters are cut to their first 1000 characters at write time.  These
    listeners exist only for `Argument.value` and `Call.return_value`. -/
def truncate1000 (s : String) : String :=
  if 1000 < s.length then s.take 1000 else s

/-- A Python runtime value on which the recorder's serialization succeeds,
    abstracted to what the recorder inspects about it: whether it is a class
    object, its class name, and its serialized text.  Values on which the
    `json.dumps(·, default=str)` call itself raises (dicts with non-primitive
    keys, self-referential containers) are modeled separately by `JsonVal`. -/
inductive PyVal where
  | cls (name : String)
  | obj (className : String) (text : String)
deriving Repr, DecidableEq

/-- `inspect.isclass(v)` (tracer.py line 91). -/
def isclass : PyVal → Bool
  | .cls _ => true
  | .obj _ _ => false

/-- `hasattr(v, "__class__")` (tracer.py line 94): true of every Python value,
    since every object carries a `__class__` attribute. -/
def hasClassAttr : PyVal → Bool
  | _ => true

/-- `v.__name__` of a class / `v.__class__.__name__` of any other value
    (tracer.py lines 93 and 96). -/
def classNameOf : PyVal → String
  | .cls n => n
  | .obj cn _ => cn

/-- The text `json.dumps(v, default=str)` (tracer.py lines 120 and 145)
    returns on a value it can serialize.  `default=str` turns unknown leaf
    objects into their string representation, but the dump itself still raises
    on dicts with non-str/int/float/bool/None keys (TypeError) and on circular
    references (ValueError) - `default` is consulted for neither; that
    fallibility is modeled by `JsonVal` and `dumps`. -/
def serializeVal : PyVal → String
  | .cls n => "<class " ++ n ++ ">"
  | .obj _ t => t

/-- `"." in func.__qualname__` (tracer.py line 89): the qualified name
    contains a dot character. -/
def hasDot (qualname : String) : Bool := qualname.data.contains '.'

/-- tracer.py lines 87-96: decide whether the invocation is a plain function, a
    classmethod or an instancemethod by inspecting the qualified name and the
    first bound argument, and pick up the owning class name. -/
def classifyMethod (qualname : String) (argVals : List PyVal) :
    String × Option String :=
  if hasDot qualname && !argVals.isEmpty then
    match argVals.head? with
    | some first =>
      if isclass first then ("classmethod", some (classNameOf first))
      else if hasClassAttr first then ("instancemethod", some (classNameOf first))
      else ("function", none)
    | none => ("function", none)
  else ("function", none)

/-- Entry/exit events of one thread's recorder activity, kept as a log so the
    nesting claims can be stated against the dynamic call sequence itself. -/
inductive Ev where
  | enterEv (cid : Nat) (parent : Option Nat)
  | exitEv (cid : Nat)
deriving Repr, DecidableEq

/-- The in-flight call stack derived from an event list alone: an enter pushes
    its call id, an exit pops the innermost entry.  The head is the innermost
    still-active call. -/
def evStack (s : List Nat) : List Ev → List Nat
  | [] => s
  | .enterEv cid _ :: rest => evStack (cid :: s) rest
  | .exitEv _ :: rest => evStack s.tail rest

/-- The recorder's world: the three tables of the trace store, the id counters
    SQLite assigns on insert, one thread's `_call_stack.stack` (head = top),
    the logical clock, and the event log of the run. -/
structure St where
  functions : List FunctionRow := []
  nextFunctionId : Nat := 1
  calls : List CallRow := []
  nextCallId : Nat := 1
  arguments : List ArgumentRow := []
  nextArgId : Nat := 1
  stack : List Nat := []
  clock : Nat := 0
  log : List Ev := []
deriving Repr

def emptySt : St := {}

/-- The four-part Function identity plus the metadata captured at decoration
    time (tracer.py lines 22-42). -/
structure FnMeta where
  module : String
  qualname : String
  filename : String
  lineno : Nat
  signature : String
  annotations_json : Option String := none
  defaults_json : Option String := none
  kwdefaults_json : Option String := none
  closure_vars_json : Option String := none
deriving Repr, DecidableEq

/-- tracer.py lines 45-53: the WHERE clause of the Function lookup, the
    four-part identity key. -/
def sameKey (m : FnMeta) (r : FunctionRow) : Bool :=
  r.module == m.module && r.qualname == m.qualname &&
  r.filename == m.filename && r.lineno == m.lineno

/-- Equality of two decoration-time identities on the four-part key. -/
def metaKeyEq (m' m : FnMeta) : Bool :=
  m'.module == m.module && m'.qualname == m.qualname &&
  m'.filename == m.filename && m'.lineno == m.lineno

/-- The Function row inserted for a fresh identity (tracer.py lines 56-66).
    The metadata strings are stored verbatim: `models.py` installs no
    truncation listener on any `function` column. -/
def rowOfMeta (m : FnMeta) (i : Nat) : FunctionRow :=
  { id := i, module := m.module, qualname := m.qualname,
    filename := m.filename, lineno := m.lineno, signature := m.signature,
    annotations := m.annotations_json, defaults := m.defaults_json,
    kwdefaults := m.kwdefaults_json, closure_vars := m.closure_vars_json }

/-- tracer.py lines 44-71: at decoration time, look the Function up by its
    four-part key and insert it only when absent; return its id. -/
def registerFunction (m : FnMeta) (st : St) : Nat × St :=
  match st.functions.find? (sameKey m) with
  | some r => (r.id, st)
  | none =>
    (st.nextFunctionId,
      { st with
          functions := st.functions ++ [rowOfMeta m st.nextFunctionId],
          nextFunctionId := st.nextFunctionId + 1 })

/-- The Call row inserted before the body runs (tracer.py lines 98-112):
    parent is the top of the thread's stack, timestamp is the entry clock, and
    every completion field is still null. -/
def enterRow (funcId : Nat) (qualname : String)
    (boundArgs : List (String × PyVal)) (tid : Nat) (isCoro : Bool)
    (st : St) : CallRow :=
  { id := st.nextCallId, function_id := funcId,
    parent_call_id := st.stack.head?,
    timestamp := st.clock, duration_ms := none, thread_id := tid,
    is_coroutine := isCoro,
    method_type := (classifyMethod qualname (boundArgs.map (fun a => a.2))).1,
    class_name := (classifyMethod qualname (boundArgs.map (fun a => a.2))).2,
    return_value := none, exception_type := none,
    exception_message := none, tb := none }

/-- The Argument rows inserted right after the Call row (tracer.py lines
    115-123); each serialized value passes through the `before_insert`
    truncation listener of `models.py`. -/
def enterArgRows (boundArgs : List (String × PyVal)) (cid firstId : Nat) :
    List ArgumentRow :=
  boundArgs.enum.map (fun p =>
    { id := firstId + p.1, call_id := cid, name := p.2.1,
      value := truncate1000 (serializeVal p.2.2) })

/-- tracer.py lines 74-123, the entry phase of `wrapper`: read the parent from
    the thread's stack, classify the call, insert the Call row and its
    Argument rows, push the new call id.  Returns the id SQLite assigned. -/
def wrapperEnter (funcId : Nat) (qualname : String)
    (boundArgs : List (String × PyVal)) (tid : Nat) (isCoro : Bool)
    (st : St) : Nat × St :=
  let cid := st.nextCallId
  (cid,
    { st with
        calls := st.calls ++ [enterRow funcId qualname boundArgs tid isCoro st],
        nextCallId := cid + 1,
        arguments := st.arguments ++ enterArgRows boundArgs cid st.nextArgId,
        nextArgId := st.nextArgId + boundArgs.length,
        stack := cid :: st.stack,
        clock := st.clock + 1,
        log := st.log ++ [.enterEv cid st.stack.head?] })

/-- `traceback.format_exc()` (tracer.py line 129), abstracted to a canonical
    non-empty formatted traceback for the active exception. -/
def formatTb (ty msg : String) : String :=
  "Traceback (most recent call last):\n" ++ ty ++ ": " ++ msg

/-- tracer.py lines 140-149 (`else` branch): update the Call row with the
    elapsed duration and the serialized return value (cut by the
    `before_update` truncation listener), pop the thread's stack. -/
def wrapperExitRet (cid : Nat) (v : PyVal) (start : Nat) (st : St) : St :=
  { st with
      calls := st.calls.map (fun r =>
        if r.id == cid then
          { r with duration_ms := some (st.clock - start),
                   return_value := some (truncate1000 (serializeVal v)) }
        else r),
      stack := st.stack.tail,
      clock := st.clock + 1,
      log := st.log ++ [.exitEv cid] }

/-- tracer.py lines 127-139 (`except Exception` branch): update the Call row
    with the elapsed duration, the exception class name, the exception message
    (stored verbatim - no truncation listener exists for it) and the formatted
    traceback; pop the thread's stack.  `return_value` stays null. -/
def wrapperExitExc (cid : Nat) (ty msg : String) (start : Nat) (st : St) : St :=
  { st with
      calls := st.calls.map (fun r =>
        if r.id == cid then
          { r with duration_ms := some (st.clock - start),
                   exception_type := some ty,
                   exception_message := some msg,
                   tb := some (formatTb ty msg) }
        else r),
      stack := st.stack.tail,
      clock := st.clock + 1,
      log := st.log ++ [.exitEv cid] }

/-- Outcome of executing a callable's body.  `fatal` is a raised
    `BaseException` that is not an `Exception` (e.g. `KeyboardInterrupt`),
    which the `except Exception` clause at tracer.py line 127 does not match. -/
inductive BodyRes where
  | ret (v : PyVal)
  | exc (ty msg : String)
  | fatal (ty : String)
deriving Repr, DecidableEq

/-- tracer.py lines 74-149: one invocation of `wrapper` around a body with the
    given outcome.  On a normal return the row is completed and the original
    result returned unchanged; on an `Exception` the row is completed with the
    exception fields and the same exception re-raised; on a non-`Exception`
    `BaseException` no handler matches, so no update and no pop happen and the
    exception propagates as-is. -/
def wrapperCall (funcId : Nat) (qualname : String)
    (boundArgs : List (String × PyVal)) (tid : Nat) (isCoro : Bool)
    (body : BodyRes) (st : St) : BodyRes × St :=
  let start := st.clock
  let (cid, st1) := wrapperEnter funcId qualname boundArgs tid isCoro st
  match body with
  | .ret v => (.ret v, wrapperExitRet cid v start st1)
  | .exc ty msg => (.exc ty msg, wrapperExitExc cid ty msg start st1)
  | .fatal ty => (.fatal ty, st1)

/-- Fault injection for Trace Store writes.  tracer.py wraps none of its
    `Session` blocks in a try/except, so a raising `commit` escapes `wrapper`:
    * `failEnter`: the insert-phase commit (line 110) raises - nothing is
      persisted, the stack is untouched and the body never runs;
    * `failUpdate`: the completion-phase commit (line 137 or 147) raises - the
      pop and the `return result` / `raise` after it are skipped. -/
inductive DbFault where
  | noFault
  | failEnter (msg : String)
  | failUpdate (msg : String)
deriving Repr, DecidableEq

/-- tracer.py lines 74-149 executed against a store whose designated write
    raises `sqlalchemy.exc.OperationalError`.  Returns the outcome the caller
    observes, whether the wrapped body ran at all, and the final state. -/
def wrapperCallDb (fault : DbFault) (funcId : Nat) (qualname : String)
    (boundArgs : List (String × PyVal)) (tid : Nat) (isCoro : Bool)
    (body : BodyRes) (st : St) : BodyRes × Bool × St :=
  match fault with
  | .noFault =>
    let r := wrapperCall funcId qualname boundArgs tid isCoro body st
    (r.1, true, r.2)
  | .failEnter msg => (.exc "OperationalError" msg, false, st)
  | .failUpdate msg =>
    let st1 := (wrapperEnter funcId qualname boundArgs tid isCoro st).2
    match body with
    | .ret _ => (.exc "OperationalError" msg, true, st1)
    | .exc _ _ => (.exc "OperationalError" msg, true, st1)
    | .fatal ty => (.fatal ty, true, st1)

/-- What a callable's body does once its nested wrapped calls are done. -/
inductive LeafAct where
  | retL (v : PyVal)
  | excL (ty msg : String)
  | fatalL (ty : String)
deriving Repr, DecidableEq

mutual
/-- A single-thread nesting scenario: one wrapped invocation, the nested
    wrapped invocations its body performs in order, and its final action.
    `caught` says whether the surrounding body catches this invocation's
    `Exception` and continues with the next sibling. -/
inductive Prog where
  | node (funcId : Nat) (qualname : String)
      (boundArgs : List (String × PyVal)) (caught : Bool)
      (children : ProgList) (leaf : LeafAct) : Prog
/-- A sequence of nested wrapped invocations. -/
inductive ProgList where
  | nil : ProgList
  | cons (p : Prog) (ps : ProgList) : ProgList
end

def Prog.caught : Prog → Bool
  | .node _ _ _ c _ _ => c

/-- Result of running one wrapped invocation or a sequence of them. -/
inductive RunRes where
  | okR (v : PyVal)
  | raisedR (ty msg : String)
  | fatalR (ty : String)
deriving Repr, DecidableEq

mutual
/-- Run one wrapped invocation: the tracer.py `wrapper` around a body that
    first performs its nested wrapped calls and then its leaf action.  An
    `Exception` escaping the body is recorded and re-raised; a fatal
    `BaseException` skips both the update and the pop. -/
def runProg (tid : Nat) (p : Prog) (st : St) : RunRes × St :=
  match p with
  | .node funcId qualname boundArgs _ children leaf =>
    let start := st.clock
    let (cid, st1) := wrapperEnter funcId qualname boundArgs tid false st
    match runChildren tid children st1 with
    | (.fatalR ty, st2) => (.fatalR ty, st2)
    | (.raisedR ty msg, st2) => (.raisedR ty msg, wrapperExitExc cid ty msg start st2)
    | (.okR _, st2) =>
      match leaf with
      | .retL v => (.okR v, wrapperExitRet cid v start st2)
      | .excL ty msg => (.raisedR ty msg, wrapperExitExc cid ty msg start st2)
      | .fatalL ty => (.fatalR ty, st2)
/-- Run the nested invocations of a body in order: a raised `Exception` from a
    child marked `caught` is handled by the body, any other raised `Exception`
    aborts the body, and a fatal `BaseException` always propagates. -/
def runChildren (tid : Nat) (ps : ProgList) (st : St) : RunRes × St :=
  match ps with
  | .nil => (.okR (.obj "NoneType" "None"), st)
  | .cons p rest =>
    match runProg tid p st with
    | (.okR _, st1) => runChildren tid rest st1
    | (.raisedR ty msg, st1) =>
      if p.caught then runChildren tid rest st1
      else (.raisedR ty msg, st1)
    | (.fatalR ty, st1) => (.fatalR ty, st1)
end

mutual
/-- The same nesting scenario executed without any instrumentation: what the
    unwrapped callables alone would produce. -/
def plainProg (p : Prog) : RunRes :=
  match p with
  | .node _ _ _ _ children leaf =>
    match plainChildren children with
    | .fatalR ty => .fatalR ty
    | .raisedR ty msg => .raisedR ty msg
    | .okR _ =>
      match leaf with
      | .retL v => .okR v
      | .excL ty msg => .raisedR ty msg
      | .fatalL ty => .fatalR ty
/-- The nested invocations of a body, uninstrumented. -/
def plainChildren (ps : ProgList) : RunRes :=
  match ps with
  | .nil => .okR (.obj "NoneType" "None")
  | .cons p rest =>
    match plainProg p with
    | .okR _ => plainChildren rest
    | .raisedR ty msg =>
      if p.caught then plainChildren rest
      else .raisedR ty msg
    | .fatalR ty => .fatalR ty
end

/-- One observable interaction of the traced program with the recorder:
    decorating a callable (which registers its Function identity) or invoking
    an already decorated callable through `wrapper`. -/
inductive TraceOp where
  | wrapOp (m : FnMeta)
  | callOp (funcId : Nat) (qualname : String)
      (boundArgs : List (String × PyVal)) (tid : Nat) (isCoro : Bool)
      (body : BodyRes)

def applyOp (st : St) : TraceOp → St
  | .wrapOp m => (registerFunction m st).2
  | .callOp f q a t c b => (wrapperCall f q a t c b st).2

def applyOps (ops : List TraceOp) (st : St) : St := ops.foldl applyOp st

/-- Number of Function rows carrying a given four-part identity key. -/
def countKey (st : St) (m : FnMeta) : Nat :=
  (st.functions.filter (sameKey m)).length

/-- Whether an operation is a decoration of the given identity key. -/
def isWrapOf (m : FnMeta) : TraceOp → Bool
  | .wrapOp m' => metaKeyEq m' m
  | .callOp _ _ _ _ _ _ => false

/-- Python `str(x)` of an optional string column: `None` prints as "None". -/
def pyStr : Option String → String
  | some s => s
  | none => "None"

/-- Python `str(x)` of an optional numeric column. -/
def pyStrN : Option Nat → String
  | some n => toString n
  | none => "None"

/-- Python `str.splitlines` restricted to newline-separated text: the empty
    string has no lines and a trailing newline adds no extra empty line. -/
def splitLines (s : String) : List String :=
  if s = "" then []
  else
    let ps := s.splitOn "\n"
    if ps.getLast? = some "" then ps.dropLast else ps

/-- dumper.py lines 115-116: the `name -> value` argument map of one call, in
    table row order. -/
def argsFor (arguments : List ArgumentRow) (cid : Nat) : List (String × String) :=
  (arguments.filter (fun a => a.call_id == cid)).map (fun a => (a.name, a.value))

/-- dumper.py lines 121-124: the children ids of a call, collected in table
    row order from the parent pointers. -/
def childrenOf (calls : List CallRow) (pid : Nat) : List Nat :=
  (calls.filter (fun c => c.parent_call_id == some pid)).map (fun c => c.id)

/-- dumper.py line 125: the root calls are the rows whose parent id is null. -/
def rootCalls (calls : List CallRow) : List CallRow :=
  calls.filter (fun c => c.parent_call_id == none)

/-- dumper.py line 120: `calls_by_id` lookup. -/
def findCall (calls : List CallRow) (cid : Nat) : Option CallRow :=
  calls.find? (fun c => c.id == cid)

/-- Timestamp of a call id (used as the Python `sorted` key at line 150). -/
def tsOf (calls : List CallRow) (cid : Nat) : Nat :=
  match findCall calls cid with
  | some c => c.timestamp
  | none => 0

/-- dumper.py line 150: `sorted(children, key=timestamp)` (a stable sort, as
    in CPython). -/
def sortChildren (calls : List CallRow) (l : List Nat) : List Nat :=
  l.mergeSort (fun a b => decide (tsOf calls a ≤ tsOf calls b))

/-- dumper.py line 179: `sorted(root_calls, key=timestamp)`. -/
def sortRoots (roots : List CallRow) : List CallRow :=
  roots.mergeSort (fun a b => decide (a.timestamp ≤ b.timestamp))

/-- dumper.py line 129: the per-line depth tag. -/
def depthTag (depth : Nat) : String := "[DEPTH=" ++ toString depth ++ "] "

/-- dumper.py lines 131-148: one call's own block, before the depth tag is
    prefixed to each line. -/
def callBlockRaw (c : CallRow) (argsList : List (String × String)) :
    List String :=
  ["CALL " ++ toString c.id ++ ":",
   "  Function ID: " ++ toString c.function_id,
   "  Timestamp: " ++ toString c.timestamp,
   "  Duration (ms): " ++ pyStrN c.duration_ms,
   "  Thread ID: " ++ toString c.thread_id ++ "  Coroutine: " ++ toString c.is_coroutine,
   "  Method Type: " ++ c.method_type ++ "  Class: " ++ pyStr c.class_name]
  ++ (if argsList.isEmpty then []
      else "  Arguments:" ::
        argsList.map (fun nv => "    - " ++ nv.1 ++ ": " ++ nv.2))
  ++ (match c.return_value with
      | some rv => ["  Return Value: " ++ rv]
      | none => [])
  ++ (match c.exception_type with
      | some ty => ["  Exception: " ++ ty ++ " - " ++ pyStr c.exception_message]
      | none => [])
  ++ (match c.tb with
      | some tb => "  Traceback:" :: (splitLines tb).map (fun l => "    " ++ l)
      | none => [])

/-- dumper.py lines 128-151 `render_call`: emit one call's depth-tagged block,
    then recurse into its children sorted by ascending timestamp.  The Python
    recursion terminates because the rows reachable from roots form a forest;
    the embedding bounds the recursion depth with `fuel`, and `dumpLlmLines`
    passes `calls.length`, which the depth of that forest never exceeds. -/
def renderCall (calls : List CallRow) (arguments : List ArgumentRow) :
    Nat → Nat → Nat → List String
  | 0, _, _ => []
  | fuel + 1, cid, depth =>
    (match findCall calls cid with
     | none => []
     | some c =>
       (callBlockRaw c (argsFor arguments cid)).map (fun l => depthTag depth ++ l))
    ++ (sortChildren calls (childrenOf calls cid)).flatMap
         (fun child => renderCall calls arguments fuel child (depth + 1))

/-- `f.get("source_code") or ""` (dumper.py line 173). -/
def pyStr0 : Option String → String
  | some s => s
  | none => ""

/-- dumper.py lines 158-175: one Function's block in the Functions Metadata
    section (source text included when available). -/
def functionBlock (f : FunctionRow) : List String :=
  ["Function ID: " ++ toString f.id,
   "Module: " ++ f.module,
   "Qualified Name: " ++ f.qualname,
   "Defined at: " ++ f.filename ++ ":" ++ toString f.lineno,
   "Signature: " ++ f.signature]
  ++ (match f.annotations with | some a => ["Annotations: " ++ a] | none => [])
  ++ (match f.defaults with | some d => ["Defaults: " ++ d] | none => [])
  ++ (match f.kwdefaults with | some k => ["Kwdefaults: " ++ k] | none => [])
  ++ (match f.closure_vars with | some cv => ["Closure Vars: " ++ cv] | none => [])
  ++ ["Source Code:"]
  ++ (splitLines (pyStr0 f.source_code)).map (fun l => "    " ++ l)
  ++ [""]

/-- dumper.py lines 99-183 `dump_llm_text`, as the list of emitted lines: the
    Functions Metadata section (one block per Function, in table order)
    followed by the Call Execution Flow section (each root call rendered
    depth-first, roots in ascending timestamp order, one blank line after each
    root's subtree).  A pure function of the three row lists - rendering reads
    the store and never writes it, and equal stores give equal output. -/
def dumpLlmLines (functions : List FunctionRow) (calls : List CallRow)
    (arguments : List ArgumentRow) : List String :=
  ("=== Functions Metadata ===" :: functions.flatMap functionBlock)
  ++ ("=== Call Execution Flow ===" ::
      (sortRoots (rootCalls calls)).flatMap (fun r =>
        renderCall calls arguments calls.length r.id 0 ++ [""]))

/-- dumper.py line 183: the report text is the lines joined by newlines. -/
def dumpLlmText (functions : List FunctionRow) (calls : List CallRow)
    (arguments : List ArgumentRow) : String :=
  "\n".intercalate (dumpLlmLines functions calls arguments)

/-- An absolute filesystem path as its list of components ("/a/b" is
    ["a", "b"]; the filesystem root is `[]`). -/
abbrev PathC := List String

/-- run.py line 112: `os.path.commonpath([root, p]) == root` - for two
    absolute component paths the common path is the longest common prefix, so
    the check holds exactly when `root` is a component-prefix of `p`. -/
def commonPathIsRoot (root p : PathC) : Bool := root.isPrefixOf p

/-- run.py line 119: `str(p).startswith(prefix + os.sep)` - the prefix string
    followed by a separator, i.e. a proper component-prefix of `p`. -/
def startsWithSep (pre p : PathC) : Bool :=
  pre.isPrefixOf p && pre.length < p.length

/-- run.py line 123: `any(part in ("site-packages", "dist-packages") for part
    in p.parts)`. -/
def hasSitePackagesPart (p : PathC) : Bool :=
  p.any (fun part => part == "site-packages" || part == "dist-packages")

/-- run.py lines 127-131, one step per ancestor: stop without a hit on
    reaching the project root, report a hit when the ancestor holds a venv or
    conda marker (`(parent / "pyvenv.cfg").is_file() or
    (parent / "conda-meta").is_dir()`, abstracted as the `marker` predicate),
    stop after the filesystem root.  `fuel` only bounds the recursion; the
    caller passes enough for the whole ancestor chain. -/
def parentsWalk (marker : PathC → Bool) (root : PathC) :
    Nat → PathC → Bool
  | 0, _ => false
  | fuel + 1, a =>
    if a == root then false
    else if marker a then true
    else if a.isEmpty then false
    else parentsWalk marker root fuel a.dropLast

/-- run.py lines 127-131: walk `p.parents` from the nearest ancestor upward
    until the project root, looking for an isolated-environment marker. -/
def parentsHaveMarker (marker : PathC → Bool) (root : PathC) (p : PathC) :
    Bool :=
  parentsWalk marker root p.length p.dropLast

/-- run.py lines 99-133 `VibeFinder._inside_project`: the inclusion decision,
    with its early returns written as an if-chain.  `thirdParty` is the prefix
    set `_collect_third_party_prefixes` computed at `VibeFinder` construction:
    the interpreter's purelib/platlib/prefix/base_prefix plus every venv or
    conda root found by walking the project tree. -/
def insideProject (root : PathC) (thirdParty : List PathC)
    (marker : PathC → Bool) (p : PathC) : Bool :=
  if !(commonPathIsRoot root p) then false
  else if thirdParty.any (fun pre => startsWithSep pre p) then false
  else if hasSitePackagesPart p then false
  else if parentsHaveMarker marker root p then false
  else true

/-- The inclusion conditions exactly as the specification's claim states them:
    the file lies inside the project root; no ancestor directory strictly
    between the file and the project root carries a `pyvenv.cfg` or
    `conda-meta` marker; the path passes through no `site-packages` or
    `dist-packages` directory; the file is not under the running interpreter's
    installation prefixes. -/
def claimConditions (root : PathC) (interp : List PathC)
    (marker : PathC → Bool) (p : PathC) : Prop :=
  root.isPrefixOf p = true
  ∧ (∀ a : PathC, a.isPrefixOf p = true → root.isPrefixOf a = true →
      a ≠ root → a ≠ p → marker a = false)
  ∧ (∀ part ∈ p, part ≠ "site-packages" ∧ part ≠ "dist-packages")
  ∧ (∀ q ∈ interp, ¬(q.isPrefixOf p = true ∧ q ≠ p))

mutual
theorem runProg_result (tid : Nat) (p : Prog) (st : St) :
    (runProg tid p st).1 = plainProg p := by
  cases p with
  | node funcId qualname boundArgs caught children leaf =>
    have h := runChildren_result tid children
      (wrapperEnter funcId qualname boundArgs tid false st).2
    simp only [runProg, plainProg]
    rcases hr : runChildren tid children
        (wrapperEnter funcId qualname boundArgs tid false st).2 with ⟨res, st2⟩
    rw [hr] at h
    simp only at h
    rw [← h]
    cases res with
    | okR v => cases leaf <;> simp
    | raisedR ty msg => simp
    | fatalR ty => simp

theorem runChildren_result (tid : Nat) (ps : ProgList) (st : St) :
    (runChildren tid ps st).1 = plainChildren ps := by
  cases ps with
  | nil => simp [runChildren, plainChildren]
  | cons p rest =>
    have hp := runProg_result tid p st
    simp only [runChildren, plainChildren]
    rcases hr : runProg tid p st with ⟨res, st1⟩
    rw [hr] at hp
    simp only at hp
    rw [← hp]
    cases res with
    | okR v => simp [runChildren_result tid rest st1]
    | raisedR ty msg =>
      by_cases hc : p.caught = true
      · simp [hc, runChildren_result tid rest st1]
      · simp [Bool.not_eq_true] at hc
        simp [hc]
    | fatalR ty => simp
end

/-- Outcome transparency on the serializable fragment: when every `json.dumps`
    call succeeds, invoking the wrapper yields exactly the unwrapped
    callable's outcome - the identical return value on normal return, the
    identical exception (kind and message) re-raised on failure, never
    swallowed, altered or wrapped - both for a single invocation and through
    arbitrarily nested wrapped invocations.  The paths where `json.dumps`
    itself raises are modeled by `wrapperCallJson` and settled by
    `wrapper_outcome_with_serialization`. -/
theorem wrapper_preserves_outcome :
    (∀ funcId qualname boundArgs tid isCoro body st,
      (wrapperCall funcId qualname boundArgs tid isCoro body st).1 = body)
    ∧ (∀ tid p st, (runProg tid p st).1 = plainProg p) := by
  constructor
  · intro f q a t c body st
    cases body <;> rfl
  · exact fun tid p st => runProg_result tid p st

/-- C9: a raised `BaseException` that is not an `Exception` propagates out of
    the wrapper without any completion update: the Call row keeps null
    duration and null outcome fields, the thread's stack is not popped, and a
    subsequent call on that thread records the aborted call as its parent. -/
theorem fatal_exception_skips_completion (funcId : Nat) (qualname : String)
    (boundArgs : List (String × PyVal)) (tid : Nat) (isCoro : Bool)
    (ty : String) (st : St) (funcId2 : Nat) (qualname2 : String)
    (boundArgs2 : List (String × PyVal)) (tid2 : Nat) (isCoro2 : Bool) :
    (wrapperCall funcId qualname boundArgs tid isCoro (.fatal ty) st).1
      = .fatal ty
    ∧ (wrapperCall funcId qualname boundArgs tid isCoro (.fatal ty) st).2.calls
      = st.calls ++ [enterRow funcId qualname boundArgs tid isCoro st]
    ∧ (enterRow funcId qualname boundArgs tid isCoro st).duration_ms = none
    ∧ (enterRow funcId qualname boundArgs tid isCoro st).return_value = none
    ∧ (enterRow funcId qualname boundArgs tid isCoro st).exception_type = none
    ∧ (enterRow funcId qualname boundArgs tid isCoro st).exception_message = none
    ∧ (enterRow funcId qualname boundArgs tid isCoro st).tb = none
    ∧ (wrapperCall funcId qualname boundArgs tid isCoro (.fatal ty) st).2.stack
      = st.nextCallId :: st.stack
    ∧ (enterRow funcId2 qualname2 boundArgs2 tid2 isCoro2
        (wrapperCall funcId qualname boundArgs tid isCoro (.fatal ty) st).2).parent_call_id
      = some st.nextCallId :=
  ⟨rfl, rfl, rfl, rfl, rfl, rfl, rfl, rfl, rfl⟩

/-- C10: the recorded `method_type` is always one of "function", "classmethod"
    and "instancemethod" (never "staticmethod"); whenever the qualified name
    contains a dot and at least one argument is bound, the call is classified
    "classmethod" exactly when the first bound argument is a class and
    "instancemethod" otherwise (the receiver check `hasattr(first, "__class__")`
    holds of every value), so a dotted name is classified "function" only for
    zero-bound-argument calls. -/
theorem method_type_classification (funcId : Nat) (qualname : String)
    (boundArgs : List (String × PyVal)) (tid : Nat) (isCoro : Bool) (st : St) :
    (enterRow funcId qualname boundArgs tid isCoro st).method_type
      = (classifyMethod qualname (boundArgs.map (fun a => a.2))).1
    ∧ ((classifyMethod qualname (boundArgs.map (fun a => a.2))).1 = "function"
      ∨ (classifyMethod qualname (boundArgs.map (fun a => a.2))).1 = "classmethod"
      ∨ (classifyMethod qualname (boundArgs.map (fun a => a.2))).1 = "instancemethod")
    ∧ (classifyMethod qualname (boundArgs.map (fun a => a.2))).1 ≠ "staticmethod"
    ∧ (∀ v : PyVal, hasClassAttr v = true)
    ∧ (∀ n v rest, boundArgs = (n, v) :: rest → hasDot qualname = true →
        (classifyMethod qualname (boundArgs.map (fun a => a.2))).1
          = (if isclass v = true then "classmethod" else "instancemethod"))
    ∧ (hasDot qualname = true →
        (classifyMethod qualname (boundArgs.map (fun a => a.2))).1 = "function" →
        boundArgs = []) := by
  refine ⟨rfl, ?_, ?_, fun v => rfl, ?_, ?_⟩
  case _ =>
    cases boundArgs with
    | nil => exact Or.inl (by simp [classifyMethod])
    | cons hd tl =>
      by_cases hdot : hasDot qualname = true
      · cases hv : hd.2 with
        | cls nm =>
          exact Or.inr (Or.inl (by simp [classifyMethod, hdot, hv, isclass]))
        | obj cn t =>
          exact Or.inr (Or.inr (by
            simp [classifyMethod, hdot, hv, isclass, hasClassAttr]))
      · have hdot' : hasDot qualname = false := by
          simpa [Bool.not_eq_true] using hdot
        exact Or.inl (by simp [classifyMethod, hdot'])
  case _ =>
    cases boundArgs with
    | nil => simp [classifyMethod]
    | cons hd tl =>
      by_cases hdot : hasDot qualname = true
      · cases hv : hd.2 with
        | cls nm => simp [classifyMethod, hdot, hv, isclass]
        | obj cn t => simp [classifyMethod, hdot, hv, isclass, hasClassAttr]
      · have hdot' : hasDot qualname = false := by
          simpa [Bool.not_eq_true] using hdot
        simp [classifyMethod, hdot']
  case _ =>
    intro n v rest h hq
    subst h
    cases hv : v with
    | cls nm => simp [classifyMethod, hq, isclass]
    | obj cn t => simp [classifyMethod, hq, isclass, hasClassAttr]
  case _ =>
    intro hq hf
    cases boundArgs with
    | nil => rfl
    | cons hd tl =>
      exfalso
      cases hv : hd.2 with
      | cls nm => simp [classifyMethod, hq, hv, isclass] at hf
      | obj cn t => simp [classifyMethod, hq, hv, isclass, hasClassAttr] at hf

theorem formatTb_ne_empty (ty msg : String) : formatTb ty msg ≠ "" := by
  intro h
  have h2 := congrArg String.length h
  rw [formatTb] at h2
  simp only [String.length_append] at h2
  have h3 : ("Traceback (most recent call last):\n").length = 35 := by decide
  have h4 : ("" : String).length = 0 := by decide
  omega

/-- A completion update touches no row whose id differs from the completed
    call's id. -/
theorem map_update_fresh (l : List CallRow) (cid : Nat)
    (f : CallRow → CallRow) (h : ∀ r ∈ l, r.id ≠ cid) :
    (l.map (fun r => if r.id == cid then f r else r)) = l := by
  induction l with
  | nil => rfl
  | cons a t ih =>
    have ha : (a.id == cid) = false := by
      simpa using h a (List.mem_cons_self a t)
    simp only [List.map_cons, ha, Bool.false_eq_true, if_false]
    rw [ih (fun r hr => h r (List.mem_cons_of_mem a hr))]

/-- C3: a completed Call row has its outcome fields mutually exclusive: on an
    `Exception` it carries the exception class name, the exception message, a
    non-empty formatted traceback and a null return value; on a normal return
    it carries the serialized return value and null exception fields.  Both
    completions fill the duration. -/
theorem completed_call_outcome_fields (funcId : Nat) (qualname : String)
    (boundArgs : List (String × PyVal)) (tid : Nat) (isCoro : Bool)
    (st : St) (ty msg : String) (v : PyVal)
    (hfresh : ∀ r ∈ st.calls, r.id ≠ st.nextCallId) :
    (∃ r, (wrapperCall funcId qualname boundArgs tid isCoro (.exc ty msg) st).2.calls
        = st.calls ++ [r]
      ∧ r.exception_type = some ty
      ∧ r.exception_message = some msg
      ∧ (∃ t, r.tb = some t ∧ t ≠ "")
      ∧ r.return_value = none
      ∧ r.duration_ms ≠ none)
    ∧ (∃ r, (wrapperCall funcId qualname boundArgs tid isCoro (.ret v) st).2.calls
        = st.calls ++ [r]
      ∧ r.return_value = some (truncate1000 (serializeVal v))
      ∧ r.exception_type = none
      ∧ r.exception_message = none
      ∧ r.tb = none
      ∧ r.duration_ms ≠ none) := by
  constructor
  · refine ⟨{ enterRow funcId qualname boundArgs tid isCoro st with
        duration_ms := some (st.clock + 1 - st.clock),
        exception_type := some ty, exception_message := some msg,
        tb := some (formatTb ty msg) }, ?_, rfl, rfl,
      ⟨formatTb ty msg, rfl, formatTb_ne_empty ty msg⟩, rfl, by simp⟩
    show (wrapperExitExc st.nextCallId ty msg st.clock
        (wrapperEnter funcId qualname boundArgs tid isCoro st).2).calls = _
    simp only [wrapperExitExc, wrapperEnter]
    rw [List.map_append, map_update_fresh _ _ _ hfresh]
    simp [enterRow]
  · refine ⟨{ enterRow funcId qualname boundArgs tid isCoro st with
        duration_ms := some (st.clock + 1 - st.clock),
        return_value := some (truncate1000 (serializeVal v)) }, ?_, rfl, rfl,
      rfl, rfl, by simp⟩
    show (wrapperExitRet st.nextCallId v st.clock
        (wrapperEnter funcId qualname boundArgs tid isCoro st).2).calls = _
    simp only [wrapperExitRet, wrapperEnter]
    rw [List.map_append, map_update_fresh _ _ _ hfresh]
    simp [enterRow]

/-- Witness for C3 at a concrete call of a callable raising
    `ValueError("bad")` and a concrete call returning the value 3. -/
theorem completed_call_outcome_fields_witness :
    (∃ r, (wrapperCall 1 "f" [] 7 false (.exc "ValueError" "bad") emptySt).2.calls
        = emptySt.calls ++ [r]
      ∧ r.exception_type = some "ValueError"
      ∧ r.exception_message = some "bad"
      ∧ (∃ t, r.tb = some t ∧ t ≠ "")
      ∧ r.return_value = none
      ∧ r.duration_ms ≠ none)
    ∧ (∃ r, (wrapperCall 1 "f" [] 7 false (.ret (.obj "int" "3")) emptySt).2.calls
        = emptySt.calls ++ [r]
      ∧ r.return_value = some (truncate1000 (serializeVal (.obj "int" "3")))
      ∧ r.exception_type = none
      ∧ r.exception_message = none
      ∧ r.tb = none
      ∧ r.duration_ms ≠ none) :=
  completed_call_outcome_fields 1 "f" [] 7 false emptySt "ValueError" "bad"
    (.obj "int" "3") (by intro r hr; simp [emptySt] at hr)

/-- The wrapper never writes the `function` table. -/
theorem wrapperCall_functions (funcId : Nat) (qualname : String)
    (boundArgs : List (String × PyVal)) (tid : Nat) (isCoro : Bool)
    (body : BodyRes) (st : St) :
    (wrapperCall funcId qualname boundArgs tid isCoro body st).2.functions
      = st.functions := by
  cases body <;> rfl

/-- Key equality makes the two lookup predicates agree. -/
theorem sameKey_congr (m' m : FnMeta) (h : metaKeyEq m' m = true)
    (r : FunctionRow) : sameKey m' r = sameKey m r := by
  simp only [metaKeyEq, Bool.and_eq_true, beq_iff_eq] at h
  obtain ⟨⟨⟨h1, h2⟩, h3⟩, h4⟩ := h
  simp [sameKey, h1, h2, h3, h4]

/-- The freshly inserted row matches a key exactly when the registered
    identity does. -/
theorem sameKey_rowOfMeta (m' m : FnMeta) (i : Nat) :
    sameKey m (rowOfMeta m' i) = metaKeyEq m' m := rfl

/-- Effect of one registration on the number of rows carrying a key. -/
theorem countKey_register (m' m : FnMeta) (st : St) (h : countKey st m ≤ 1) :
    countKey (registerFunction m' st).2 m
      = if metaKeyEq m' m = true then 1 else countKey st m := by
  unfold registerFunction
  cases hf : st.functions.find? (sameKey m') with
  | some r =>
    simp only
    by_cases hk : metaKeyEq m' m = true
    · have hp : sameKey m r = true := by
        rw [← sameKey_congr m' m hk]
        exact List.find?_some hf
      have hmem : r ∈ st.functions.filter (sameKey m) :=
        List.mem_filter.mpr ⟨List.mem_of_find?_eq_some hf, hp⟩
      have hpos : 0 < countKey st m :=
        List.length_pos.mpr (List.ne_nil_of_mem hmem)
      have : countKey st m = 1 := by omega
      simp [hk, this]
    · simp [hk]
  | none =>
    simp only
    have hnone : ∀ x ∈ st.functions, ¬ sameKey m' x = true :=
      List.find?_eq_none.mp hf
    by_cases hk : metaKeyEq m' m = true
    · have hzero : st.functions.filter (sameKey m) = [] := by
        rw [List.filter_eq_nil_iff]
        intro a ha
        rw [← sameKey_congr m' m hk]
        exact hnone a ha
      simp [hk, countKey, List.filter_append, hzero, sameKey_rowOfMeta]
    · have hkf : metaKeyEq m' m = false := by
        simpa [Bool.not_eq_true] using hk
      simp [hk, countKey, List.filter_append, sameKey_rowOfMeta, hkf]

/-- Running any operation sequence from a duplicate-free store leaves at most
    one row per key: a key wrapped at least once ends with exactly one row,
    otherwise its count is unchanged. -/
theorem applyOps_countKey (ops : List TraceOp) (st : St) (m : FnMeta)
    (h : countKey st m ≤ 1) :
    countKey (applyOps ops st) m
      = if ops.any (isWrapOf m) then 1 else countKey st m := by
  induction ops generalizing st with
  | nil => simp [applyOps]
  | cons op rest ih =>
    have hstep : applyOps (op :: rest) st = applyOps rest (applyOp st op) := rfl
    cases op with
    | callOp f q a t c b =>
      have hfn : countKey (applyOp st (.callOp f q a t c b)) m = countKey st m := by
        unfold countKey applyOp
        rw [wrapperCall_functions]
      rw [hstep, ih _ (by rw [hfn]; exact h)]
      simp [isWrapOf, hfn]
    | wrapOp m' =>
      have hreg : countKey (applyOp st (.wrapOp m')) m
          = if metaKeyEq m' m = true then 1 else countKey st m :=
        countKey_register m' m st h
      have hle : countKey (applyOp st (.wrapOp m')) m ≤ 1 := by
        rw [hreg]; split <;> omega
      rw [hstep, ih _ hle, hreg]
      by_cases hk : metaKeyEq m' m = true
      · simp [isWrapOf, hk]
      · have hkf : metaKeyEq m' m = false := by
          simpa [Bool.not_eq_true] using hk
        simp [isWrapOf, hkf]

/-- C5: Function registration is idempotent per four-part identity key: any
    sequence of decorations and invocations, from any call sites, leaves
    exactly one Function row for every key that was decorated at least once
    and none for any other key - a second row for the same key is never
    created. -/
theorem function_registration_idempotent (ops : List TraceOp) (m : FnMeta) :
    countKey (applyOps ops emptySt) m
      = if ops.any (isWrapOf m) then 1 else 0 := by
  have h := applyOps_countKey ops emptySt m (by simp [countKey, emptySt])
  simpa [countKey, emptySt] using h

/-- Witness for C10: a concrete dotted call with an instance receiver is
    classified "instancemethod". -/
theorem method_type_classification_witness :
    (classifyMethod "Foo.bar"
      ([(("self" : String), PyVal.obj "Foo" "o")].map (fun a => a.2))).1
      = "instancemethod" := by
  have h := method_type_classification 1 "Foo.bar"
    [("self", PyVal.obj "Foo" "o")] 7 false emptySt
  have h5 := h.2.2.2.2.1 "self" (PyVal.obj "Foo" "o") [] rfl (by decide)
  rw [h5]
  decide

/-- C4 counterexample: a serialized field other than an argument value or a
    return value escapes truncation.  Registering a Function whose serialized
    `annotations` metadata is 1001 characters long stores the string verbatim:
    the stored value has length 1001 and is not its own first 1000 characters,
    refuting "this truncation applies to any serialized field longer than 1000
    characters". -/
theorem serialized_field_truncation_counterexample :
    ∃ r ∈ (registerFunction
        { module := "m", qualname := "f", filename := "a.py", lineno := 1,
          signature := "(x)",
          annotations_json := some (String.mk (List.replicate 1001 'a')) }
        emptySt).2.functions,
      r.annotations = some (String.mk (List.replicate 1001 'a'))
      ∧ 1000 < (String.mk (List.replicate 1001 'a')).length
      ∧ (String.mk (List.replicate 1001 'a')).take 1000
          ≠ String.mk (List.replicate 1001 'a') := by
  refine ⟨rowOfMeta
      { module := "m", qualname := "f", filename := "a.py", lineno := 1,
        signature := "(x)",
        annotations_json := some (String.mk (List.replicate 1001 'a')) } 1,
    ?_, rfl, ?_, ?_⟩
  · simp [registerFunction, emptySt]
  · rw [String.length_mk, List.length_replicate]
    omega
  · intro hcontra
    have h1 := congrArg String.length hcontra
    rw [String.take_eq, String.length_mk, String.length_mk, List.length_take,
      List.length_replicate] at h1
    simp only [Nat.min_def] at h1
    split at h1 <;> omega

/-- C4 (amended): write-time truncation applies exactly to stored argument
    values and stored return values - longer than 1000 characters means the
    first 1000 characters are stored, at most 1000 means the string is stored
    verbatim - while the store's other string fields (exception message,
    decoration-time metadata) are written verbatim with no truncation. -/
theorem truncation_exactly_args_and_returns :
    (∀ s : String, s.length ≤ 1000 → truncate1000 s = s)
    ∧ (∀ s : String, 1000 < s.length → truncate1000 s = s.take 1000)
    ∧ (∀ s : String, 1000 < s.length → (truncate1000 s).length = 1000)
    ∧ (∀ boundArgs : List (String × PyVal), ∀ cid firstId : Nat,
        ∀ a ∈ enterArgRows boundArgs cid firstId,
          ∃ nv ∈ boundArgs, a.value = truncate1000 (serializeVal nv.2))
    ∧ (∀ funcId qualname boundArgs tid isCoro st v,
        (hfresh : ∀ r ∈ st.calls, r.id ≠ st.nextCallId) →
        ∃ r, (wrapperCall funcId qualname boundArgs tid isCoro (.ret v) st).2.calls
            = st.calls ++ [r]
          ∧ r.return_value = some (truncate1000 (serializeVal v)))
    ∧ (∀ funcId qualname boundArgs tid isCoro st ty msg,
        (hfresh : ∀ r ∈ st.calls, r.id ≠ st.nextCallId) →
        ∃ r, (wrapperCall funcId qualname boundArgs tid isCoro (.exc ty msg) st).2.calls
            = st.calls ++ [r]
          ∧ r.exception_message = some msg ∧ r.tb = some (formatTb ty msg))
    ∧ (∀ m : FnMeta, ∀ i : Nat,
        (rowOfMeta m i).annotations = m.annotations_json
        ∧ (rowOfMeta m i).defaults = m.defaults_json
        ∧ (rowOfMeta m i).closure_vars = m.closure_vars_json) := by
  refine ⟨?_, ?_, ?_, ?_, ?_, ?_, fun m i => ⟨rfl, rfl, rfl⟩⟩
  · intro s hs
    unfold truncate1000
    rw [if_neg (by omega)]
  · intro s hs
    unfold truncate1000
    rw [if_pos hs]
  · intro s hs
    unfold truncate1000
    rw [if_pos hs, String.take_eq, String.length_mk, List.length_take]
    have : s.length = s.data.length := rfl
    simp only [Nat.min_def]
    split <;> omega
  · intro boundArgs cid firstId a ha
    unfold enterArgRows at ha
    rw [List.mem_map] at ha
    obtain ⟨p, hp, hpa⟩ := ha
    exact ⟨p.2, List.snd_mem_of_mem_enum hp, by rw [← hpa]⟩
  · intro funcId qualname boundArgs tid isCoro st v hfresh
    refine ⟨{ enterRow funcId qualname boundArgs tid isCoro st with
        duration_ms := some (st.clock + 1 - st.clock),
        return_value := some (truncate1000 (serializeVal v)) }, ?_, rfl⟩
    show (wrapperExitRet st.nextCallId v st.clock
        (wrapperEnter funcId qualname boundArgs tid isCoro st).2).calls = _
    simp only [wrapperExitRet, wrapperEnter]
    rw [List.map_append, map_update_fresh _ _ _ hfresh]
    simp [enterRow]
  · intro funcId qualname boundArgs tid isCoro st ty msg hfresh
    refine ⟨{ enterRow funcId qualname boundArgs tid isCoro st with
        duration_ms := some (st.clock + 1 - st.clock),
        exception_type := some ty, exception_message := some msg,
        tb := some (formatTb ty msg) }, ?_, rfl, rfl⟩
    show (wrapperExitExc st.nextCallId ty msg st.clock
        (wrapperEnter funcId qualname boundArgs tid isCoro st).2).calls = _
    simp only [wrapperExitExc, wrapperEnter]
    rw [List.map_append, map_update_fresh _ _ _ hfresh]
    simp [enterRow]

/-- Witness for the amended C4 at concrete inputs: a 1001-character value is
    stored as exactly its first 1000 characters while a short value and a long
    exception message are stored verbatim. -/
theorem truncation_exactly_args_and_returns_witness :
    truncate1000 "abc" = "abc"
    ∧ truncate1000 (String.mk (List.replicate 1001 'b'))
        = (String.mk (List.replicate 1001 'b')).take 1000
    ∧ (∃ r, (wrapperCall 1 "f" [] 7 false
          (.exc "ValueError" (String.mk (List.replicate 1001 'c'))) emptySt).2.calls
        = emptySt.calls ++ [r]
      ∧ r.exception_message = some (String.mk (List.replicate 1001 'c'))
      ∧ r.tb = some (formatTb "ValueError" (String.mk (List.replicate 1001 'c')))) := by
  refine ⟨?_, ?_, ?_⟩
  · exact truncation_exactly_args_and_returns.1 "abc" (by decide)
  · exact truncation_exactly_args_and_returns.2.1 (String.mk (List.replicate 1001 'b'))
      (by rw [String.length_mk, List.length_replicate]; omega)
  · obtain ⟨r, hr, hmsg, htb⟩ :=
      truncation_exactly_args_and_returns.2.2.2.2.2.1 1 "f" [] 7 false emptySt
        "ValueError" (String.mk (List.replicate 1001 'c'))
        (by intro r hr; simp [emptySt] at hr)
    exact ⟨r, hr, hmsg, htb⟩

/-- C6 counterexample: with a store whose insert-phase commit raises, the
    wrapped callable never executes and its caller receives the storage
    exception instead of the callable's return value - the recorder neither
    logs-and-continues nor absorbs the storage failure. -/
theorem store_failure_not_absorbed_counterexample :
    (wrapperCallDb (.failEnter "disk error") 1 "f" [] 7 false
        (.ret (.obj "int" "7")) emptySt).2.1 = false
    ∧ (wrapperCallDb (.failEnter "disk error") 1 "f" [] 7 false
        (.ret (.obj "int" "7")) emptySt).1 ≠ .ret (.obj "int" "7") := by
  exact ⟨rfl, by decide⟩

/-- C6 (amended): a Trace Store write failure inside the recorder is not
    absorbed, it propagates: a failing entry insert raises the storage
    exception to the caller before the wrapped callable runs; a failing
    completion update after a normal return raises the storage exception
    instead of returning the value; only with a healthy store does the
    wrapper deliver the callable's own outcome. -/
theorem store_failure_propagates (funcId : Nat) (qualname : String)
    (boundArgs : List (String × PyVal)) (tid : Nat) (isCoro : Bool)
    (body : BodyRes) (st : St) (msg : String) :
    (wrapperCallDb (.failEnter msg) funcId qualname boundArgs tid isCoro body st
      = (.exc "OperationalError" msg, false, st))
    ∧ (∀ v, wrapperCallDb (.failUpdate msg) funcId qualname boundArgs tid isCoro
        (.ret v) st
      = (.exc "OperationalError" msg, true,
         (wrapperEnter funcId qualname boundArgs tid isCoro st).2))
    ∧ (wrapperCallDb .noFault funcId qualname boundArgs tid isCoro body st
      = ((wrapperCall funcId qualname boundArgs tid isCoro body st).1, true,
         (wrapperCall funcId qualname boundArgs tid isCoro body st).2)) :=
  ⟨rfl, fun _ => rfl, rfl⟩

/-- Scan of an event log checking that every enter recorded, as its parent,
    the call that was innermost still-active at that point, `s` being the
    stack of in-flight calls when the log starts. -/
def parentsOk : List Nat → List Ev → Prop
  | _, [] => True
  | s, .enterEv cid parent :: rest => parent = s.head? ∧ parentsOk (cid :: s) rest
  | s, .exitEv _ :: rest => parentsOk s.tail rest

theorem evStack_append (l1 l2 : List Ev) (s : List Nat) :
    evStack s (l1 ++ l2) = evStack (evStack s l1) l2 := by
  induction l1 generalizing s with
  | nil => rfl
  | cons e rest ih =>
    cases e with
    | enterEv cid parent => simp [evStack, ih]
    | exitEv cid => simp [evStack, ih]

theorem parentsOk_append_enter (l : List Ev) (s : List Nat) (cid : Nat)
    (parent : Option Nat) (h : parentsOk s l)
    (hp : parent = (evStack s l).head?) :
    parentsOk s (l ++ [.enterEv cid parent]) := by
  induction l generalizing s with
  | nil =>
    exact ⟨by simpa [evStack] using hp, trivial⟩
  | cons e rest ih =>
    cases e with
    | enterEv c p =>
      obtain ⟨h1, h2⟩ := h
      exact ⟨h1, ih (c :: s) h2 (by simpa [evStack] using hp)⟩
    | exitEv c =>
      exact ih s.tail h (by simpa [evStack] using hp)

theorem parentsOk_append_exit (l : List Ev) (s : List Nat) (cid : Nat)
    (h : parentsOk s l) : parentsOk s (l ++ [.exitEv cid]) := by
  induction l generalizing s with
  | nil => exact trivial
  | cons e rest ih =>
    cases e with
    | enterEv c p =>
      obtain ⟨h1, h2⟩ := h
      exact ⟨h1, ih (c :: s) h2⟩
    | exitEv c =>
      exact ih s.tail h

theorem parentsOk_decompose (l1 : List Ev) (s : List Nat) (cid : Nat)
    (parent : Option Nat) (l2 : List Ev)
    (h : parentsOk s (l1 ++ .enterEv cid parent :: l2)) :
    parent = (evStack s l1).head? := by
  induction l1 generalizing s with
  | nil => exact h.1
  | cons e rest ih =>
    cases e with
    | enterEv c p => simpa [evStack] using ih (c :: s) h.2
    | exitEv c => simpa [evStack] using ih s.tail h

/-- The recorder invariant: the thread's stack agrees with the stack derived
    from the event log alone, every logged enter recorded the then-innermost
    in-flight call as its parent, and every logged enter has a matching Call
    row with that parent. -/
def Inv (st : St) : Prop :=
  st.stack = evStack [] st.log
  ∧ parentsOk [] st.log
  ∧ ∀ cid parent, Ev.enterEv cid parent ∈ st.log →
      ∃ r ∈ st.calls, r.id = cid ∧ r.parent_call_id = parent

theorem Inv_enter (funcId : Nat) (qualname : String)
    (boundArgs : List (String × PyVal)) (tid : Nat) (isCoro : Bool)
    (st : St) (h : Inv st) :
    Inv (wrapperEnter funcId qualname boundArgs tid isCoro st).2 := by
  obtain ⟨h1, h2, h3⟩ := h
  refine ⟨?_, ?_, ?_⟩
  · show st.nextCallId :: st.stack
      = evStack [] (st.log ++ [.enterEv st.nextCallId st.stack.head?])
    rw [evStack_append]
    simp only [evStack]
    rw [← h1]
  · exact parentsOk_append_enter _ _ _ _ h2 (by rw [← h1])
  · intro cid parent hmem
    simp only [wrapperEnter] at hmem ⊢
    rw [List.mem_append] at hmem
    cases hmem with
    | inl hold =>
      obtain ⟨r, hr, hid, hpar⟩ := h3 cid parent hold
      exact ⟨r, List.mem_append_left _ hr, hid, hpar⟩
    | inr hnew =>
      simp only [List.mem_singleton] at hnew
      cases hnew
      exact ⟨enterRow funcId qualname boundArgs tid isCoro st,
        List.mem_append_right _ (List.mem_singleton_self _), rfl, rfl⟩

theorem Inv_mapPop (st : St) (cid : Nat) (g : CallRow → CallRow)
    (hg : ∀ r, (g r).id = r.id ∧ (g r).parent_call_id = r.parent_call_id)
    (h : Inv st) :
    Inv { st with
      calls := st.calls.map (fun r => if r.id == cid then g r else r),
      stack := st.stack.tail, clock := st.clock + 1,
      log := st.log ++ [.exitEv cid] } := by
  obtain ⟨h1, h2, h3⟩ := h
  have hpres : ∀ r : CallRow,
      ((fun r => if r.id == cid then g r else r) r).id = r.id
      ∧ ((fun r => if r.id == cid then g r else r) r).parent_call_id
        = r.parent_call_id := by
    intro r
    by_cases hc : (r.id == cid) = true
    · simpa [hc] using hg r
    · simp [hc]
  refine ⟨?_, ?_, ?_⟩
  · show st.stack.tail = evStack [] (st.log ++ [.exitEv cid])
    rw [evStack_append]
    simp only [evStack]
    rw [← h1]
  · exact parentsOk_append_exit _ _ _ h2
  · intro c parent hmem
    rw [List.mem_append] at hmem
    cases hmem with
    | inl hold =>
      obtain ⟨r, hr, hid, hpar⟩ := h3 c parent hold
      refine ⟨(fun r => if r.id == cid then g r else r) r,
        List.mem_map_of_mem _ hr, ?_, ?_⟩
      · rw [(hpres r).1, hid]
      · rw [(hpres r).2, hpar]
    | inr hnew =>
      simp at hnew

theorem Inv_exitRet (cid : Nat) (v : PyVal) (start : Nat) (st : St)
    (h : Inv st) : Inv (wrapperExitRet cid v start st) :=
  Inv_mapPop st cid _ (fun _ => ⟨rfl, rfl⟩) h

theorem Inv_exitExc (cid : Nat) (ty msg : String) (start : Nat) (st : St)
    (h : Inv st) : Inv (wrapperExitExc cid ty msg start st) :=
  Inv_mapPop st cid _ (fun _ => ⟨rfl, rfl⟩) h

mutual
theorem Inv_runProg (tid : Nat) (p : Prog) (st : St) (h : Inv st) :
    Inv (runProg tid p st).2 := by
  cases p with
  | node funcId qualname boundArgs caught children leaf =>
    have h1 := Inv_enter funcId qualname boundArgs tid false st h
    have h2 := Inv_runChildren tid children
      (wrapperEnter funcId qualname boundArgs tid false st).2 h1
    simp only [runProg]
    rcases hr : runChildren tid children
        (wrapperEnter funcId qualname boundArgs tid false st).2 with ⟨res, st2⟩
    rw [hr] at h2
    cases res with
    | okR v =>
      cases leaf with
      | retL v' => exact Inv_exitRet _ _ _ _ h2
      | excL ty msg => exact Inv_exitExc _ _ _ _ _ h2
      | fatalL ty => exact h2
    | raisedR ty msg => exact Inv_exitExc _ _ _ _ _ h2
    | fatalR ty => exact h2

theorem Inv_runChildren (tid : Nat) (ps : ProgList) (st : St) (h : Inv st) :
    Inv (runChildren tid ps st).2 := by
  cases ps with
  | nil => exact h
  | cons p rest =>
    have hp := Inv_runProg tid p st h
    simp only [runChildren]
    rcases hr : runProg tid p st with ⟨res, st1⟩
    rw [hr] at hp
    cases res with
    | okR v => exact Inv_runChildren tid rest st1 hp
    | raisedR ty msg =>
      by_cases hc : p.caught = true
      · simp only [hc, if_true]
        exact Inv_runChildren tid rest st1 hp
      · have hcf : p.caught = false := by simpa [Bool.not_eq_true] using hc
        simp only [hcf, Bool.false_eq_true, if_false]
        exact hp
    | fatalR ty => exact hp
end

/-- C2: on one thread, the Call row written for an invocation entered while
    some call is still in flight records, as `parent_call_id`, exactly the
    innermost still-active call at that entry (derived from the enter/exit
    event sequence alone), and `parent_call_id` is null exactly when no call
    of that thread was in flight at the entry. -/
theorem nested_calls_parent_linkage (tid : Nat) (ps : ProgList)
    (l1 : List Ev) (cid : Nat) (parent : Option Nat) (l2 : List Ev)
    (hlog : (runChildren tid ps emptySt).2.log
      = l1 ++ Ev.enterEv cid parent :: l2) :
    parent = (evStack [] l1).head?
    ∧ (parent = none ↔ evStack [] l1 = [])
    ∧ ∃ r ∈ (runChildren tid ps emptySt).2.calls,
        r.id = cid ∧ r.parent_call_id = parent := by
  have hinv : Inv (runChildren tid ps emptySt).2 :=
    Inv_runChildren tid ps emptySt
      ⟨rfl, trivial, by intro c q hq; simp [emptySt] at hq⟩
  obtain ⟨h1, h2, h3⟩ := hinv
  rw [hlog] at h2
  have hp := parentsOk_decompose l1 [] cid parent l2 h2
  refine ⟨hp, ?_, ?_⟩
  · rw [hp]
    exact List.head?_eq_none_iff
  · exact h3 cid parent (by rw [hlog]; simp)

/-- A concrete two-level nesting scenario: `outer` calls `inner`, both return. -/
def progW : ProgList :=
  .cons (.node 1 "outer" [] false
    (.cons (.node 2 "inner" [] false .nil (.retL (.obj "int" "3"))) .nil)
    (.retL (.obj "int" "7"))) .nil

/-- Witness for C2 on the concrete scenario: the inner call's row records the
    outer call as its parent, matching the event-derived in-flight stack. -/
theorem nested_calls_parent_linkage_witness :
    (some 1 : Option Nat) = (evStack [] [Ev.enterEv 1 none]).head?
    ∧ ((some 1 : Option Nat) = none ↔ evStack [] [Ev.enterEv 1 none] = [])
    ∧ ∃ r ∈ (runChildren 5 progW emptySt).2.calls,
        r.id = 2 ∧ r.parent_call_id = some 1 :=
  nested_calls_parent_linkage 5 progW [Ev.enterEv 1 none] 2 (some 1)
    [Ev.exitEv 2, Ev.exitEv 1]
    (by simp [progW, runChildren, runProg, wrapperEnter, wrapperExitRet,
      emptySt, enterRow, enterArgRows, Prog.caught])

theorem isPrefixOf_trans {a b c : PathC} (h1 : a.isPrefixOf b = true)
    (h2 : b.isPrefixOf c = true) : a.isPrefixOf c = true := by
  rw [List.isPrefixOf_iff_prefix] at h1 h2 ⊢
  exact h1.trans h2

theorem isPrefixOf_length_lt {a b : PathC} (h : a.isPrefixOf b = true)
    (hne : a ≠ b) : a.length < b.length := by
  rw [List.isPrefixOf_iff_prefix] at h
  have hle := h.length_le
  rcases Nat.lt_or_ge a.length b.length with hlt | hge
  · exact hlt
  · exact absurd (h.eq_of_length (le_antisymm hle hge)) hne

/-- C8: instrumentation happens only under the stated conditions.  When
    `_inside_project` accepts a file, the file lies inside the project root,
    no ancestor directory between the file and the project root carries a
    `pyvenv.cfg`/`conda-meta` marker, the path passes through no
    `site-packages` or `dist-packages` directory, and the file is not under
    the running interpreter's installation prefixes; contrapositively, every
    module failing these rules is rejected and so loaded by the host's normal,
    unmodified loader (`find_spec` returns `None` whenever `_inside_project`
    is false).  `hCover` states what the `_collect_third_party_prefixes` walk
    guarantees on a static filesystem: every marker directory under the
    project root is covered by a collected prefix; `hInterp` states that the
    interpreter's prefixes are all collected. -/
theorem inside_project_only_when (root p : PathC)
    (thirdParty interp : List PathC) (marker : PathC → Bool)
    (hCover : ∀ a : PathC, root.isPrefixOf a = true → marker a = true →
        ∃ q ∈ thirdParty, q.isPrefixOf a = true)
    (hInterp : ∀ q ∈ interp, q ∈ thirdParty)
    (h : insideProject root thirdParty marker p = true) :
    claimConditions root interp marker p := by
  unfold insideProject at h
  split_ifs at h with g1 g2 g3 g4
  have hcommon : root.isPrefixOf p = true := by
    simpa [commonPathIsRoot] using g1
  have hnotp : ∀ q ∈ thirdParty, ¬(q.isPrefixOf p = true ∧ q ≠ p) := by
    intro q hq ⟨hqp, hqne⟩
    apply g2
    rw [List.any_eq_true]
    refine ⟨q, hq, ?_⟩
    have hlt := isPrefixOf_length_lt hqp hqne
    simp [startsWithSep, hqp, hlt]
  refine ⟨hcommon, ?_, ?_, ?_⟩
  · intro a hap hra hane hanep
    by_contra hm
    have hm' : marker a = true := by
      cases hmv : marker a with
      | false => exact absurd hmv hm
      | true => rfl
    obtain ⟨q, hq, hqa⟩ := hCover a hra hm'
    have hqp : q.isPrefixOf p = true := isPrefixOf_trans hqa hap
    have halt := isPrefixOf_length_lt hap hanep
    have hqlen : q.length ≤ a.length := by
      have := hqa
      rw [List.isPrefixOf_iff_prefix] at this
      exact this.length_le
    have hqnep : q ≠ p := by
      intro hcontra
      subst hcontra
      omega
    exact hnotp q hq ⟨hqp, hqnep⟩
  · intro part hpart
    have hg3 : ∀ x ∈ p, ¬((x == "site-packages" || x == "dist-packages") = true) := by
      intro x hx hcontra
      exact g3 (List.any_eq_true.mpr ⟨x, hx, hcontra⟩)
    have := hg3 part hpart
    simp only [Bool.or_eq_true, beq_iff_eq] at this
    push_neg at this
    exact this
  · intro q hq
    exact hnotp q (hInterp q hq)

/-- Witness for C8 at a concrete marker-free project layout. -/
theorem inside_project_only_when_witness :
    claimConditions ["r"] [] (fun _ => false) ["r", "x.py"] :=
  inside_project_only_when ["r"] ["r", "x.py"] [] [] (fun _ => false)
    (by intro a h1 h2; simp at h2)
    (by intro q hq; simp at hq)
    (by decide)

theorem sortRoots_perm (roots : List CallRow) :
    (sortRoots roots).Perm roots := List.mergeSort_perm roots _

theorem sortRoots_sorted (roots : List CallRow) :
    List.Sorted (fun a b : CallRow => a.timestamp ≤ b.timestamp)
      (sortRoots roots) := by
  have h := @List.sorted_mergeSort CallRow
    (fun a b : CallRow => decide (a.timestamp ≤ b.timestamp))
    (by intro a b c hab hbc; simp only [decide_eq_true_eq] at hab hbc ⊢; omega)
    (by intro a b; simp only [Bool.or_eq_true, decide_eq_true_eq]; omega) roots
  exact h.imp (by intro a b hab; simpa using hab)

theorem sortChildren_perm (calls : List CallRow) (l : List Nat) :
    (sortChildren calls l).Perm l := List.mergeSort_perm l _

theorem sortChildren_sorted (calls : List CallRow) (l : List Nat) :
    List.Sorted (fun a b : Nat => tsOf calls a ≤ tsOf calls b)
      (sortChildren calls l) := by
  have h := @List.sorted_mergeSort Nat
    (fun a b : Nat => decide (tsOf calls a ≤ tsOf calls b))
    (by intro a b c hab hbc; simp only [decide_eq_true_eq] at hab hbc ⊢; omega)
    (by intro a b; simp only [Bool.or_eq_true, decide_eq_true_eq]; omega) l
  exact h.imp (by intro a b hab; simpa using hab)

/-- Every line that `render_call` emits, at any recursion depth, starts with a
    depth tag at least as deep as the call it was entered at. -/
theorem renderCall_lines_tagged (calls : List CallRow)
    (arguments : List ArgumentRow) :
    ∀ fuel cid depth line, line ∈ renderCall calls arguments fuel cid depth →
      ∃ k rest, depth ≤ k ∧ line = depthTag k ++ rest := by
  intro fuel
  induction fuel with
  | zero =>
    intro cid depth line h
    simp [renderCall] at h
  | succ n ih =>
    intro cid depth line h
    rw [renderCall, List.mem_append] at h
    cases h with
    | inl hown =>
      cases hf : findCall calls cid with
      | none =>
        rw [hf] at hown
        simp at hown
      | some c =>
        rw [hf] at hown
        simp only [List.mem_map] at hown
        obtain ⟨l, _, hline⟩ := hown
        exact ⟨depth, l, le_refl _, hline.symm⟩
    | inr hch =>
      rw [List.mem_flatMap] at hch
      obtain ⟨child, _, hline⟩ := hch
      obtain ⟨k, rest, hk, heq⟩ := ih child (depth + 1) line hline
      exact ⟨k, rest, by omega, heq⟩

/-- C7: the rendered report is the Functions Metadata section (one block per
    Function, in table order) followed by the Call Execution Flow section; the
    flow section walks each root Call (exactly the rows with null parent)
    depth-first, with the roots and every node's children in ascending
    timestamp order; each call's block is tagged with its depth as [DEPTH=n]
    and nested blocks carry strictly deeper tags.  The renderer is a pure
    function of the three row lists: it performs no store mutation and equal
    stores give equal output. -/
theorem dump_llm_text_structure (functions : List FunctionRow)
    (calls : List CallRow) (arguments : List ArgumentRow) :
    (dumpLlmLines functions calls arguments
      = ("=== Functions Metadata ===" :: functions.flatMap functionBlock)
        ++ ("=== Call Execution Flow ===" ::
            (sortRoots (rootCalls calls)).flatMap (fun r =>
              renderCall calls arguments calls.length r.id 0 ++ [""])))
    ∧ (∀ c : CallRow, c ∈ rootCalls calls ↔ c ∈ calls ∧ c.parent_call_id = none)
    ∧ (sortRoots (rootCalls calls)).Perm (rootCalls calls)
    ∧ List.Sorted (fun a b : CallRow => a.timestamp ≤ b.timestamp)
        (sortRoots (rootCalls calls))
    ∧ (∀ cid i, i ∈ childrenOf calls cid ↔
        ∃ c ∈ calls, c.parent_call_id = some cid ∧ c.id = i)
    ∧ (∀ cid, (sortChildren calls (childrenOf calls cid)).Perm
        (childrenOf calls cid))
    ∧ (∀ cid, List.Sorted (fun a b : Nat => tsOf calls a ≤ tsOf calls b)
        (sortChildren calls (childrenOf calls cid)))
    ∧ (∀ fuel cid depth c, findCall calls cid = some c →
        renderCall calls arguments (fuel + 1) cid depth
          = (callBlockRaw c (argsFor arguments cid)).map
              (fun l => depthTag depth ++ l)
            ++ (sortChildren calls (childrenOf calls cid)).flatMap
                (fun child => renderCall calls arguments fuel child (depth + 1)))
    ∧ (∀ fuel cid depth line, line ∈ renderCall calls arguments fuel cid depth →
        ∃ k rest, depth ≤ k ∧ line = depthTag k ++ rest) := by
  refine ⟨rfl, ?_, sortRoots_perm _, sortRoots_sorted _, ?_, ?_, ?_, ?_, ?_⟩
  · intro c
    simp [rootCalls, List.mem_filter]
  · intro cid i
    simp only [childrenOf, List.mem_map, List.mem_filter]
    constructor
    · rintro ⟨c, ⟨hc, hp⟩, hid⟩
      exact ⟨c, hc, by simpa using hp, hid⟩
    · rintro ⟨c, hc, hp, hid⟩
      exact ⟨c, ⟨hc, by simpa using hp⟩, hid⟩
  · exact fun cid => sortChildren_perm calls _
  · exact fun cid => sortChildren_sorted calls _
  · intro fuel cid depth c hf
    rw [renderCall, hf]
  · exact renderCall_lines_tagged calls arguments

/-- A concrete one-row store used to witness the report structure theorem. -/
def rowW : CallRow :=
  { id := 1, function_id := 1, parent_call_id := none, timestamp := 0,
    duration_ms := none, thread_id := 7, is_coroutine := false,
    method_type := "function", class_name := none, return_value := none,
    exception_type := none, exception_message := none, tb := none }

/-- Witness for C7 on a concrete one-row store: the root call's first line is
    tagged with depth 0. -/
theorem dump_llm_text_structure_witness :
    ∃ k rest, 0 ≤ k ∧ "[DEPTH=0] CALL 1:" = depthTag k ++ rest := by
  have hrow : findCall [rowW] 1 = some rowW := by
    simp [findCall, rowW]
  apply (dump_llm_text_structure [] [rowW] []).2.2.2.2.2.2.2.2
    1 1 0 "[DEPTH=0] CALL 1:"
  rw [(dump_llm_text_structure [] [rowW] []).2.2.2.2.2.2.2.1 0 1 0 rowW hrow]
  simp [callBlockRaw, argsFor, childrenOf, sortChildren, depthTag,
    List.mergeSort_nil, renderCall, rowW]
  left
  rfl

/-- A value as the recorder's `json.dumps(v, default=str)` calls see it:
    `ok v` serializes to `serializeVal v` (with `default=str` turning unknown
    leaf objects into their string representation), while the dump itself
    still raises on the other two shapes, since `default` is consulted neither
    for dict keys nor for cycles: `badKeys` is a dict holding a key that is
    not str/int/float/bool/None (TypeError), `circular` a self-referential
    container (ValueError).  The class name is carried for the
    method-classification checks. -/
inductive JsonVal where
  | ok (v : PyVal)
  | badKeys (className : String)
  | circular (className : String)
deriving Repr, DecidableEq

/-- `json.dumps(v, default=str)` (tracer.py lines 120 and 145): the serialized
    text, or the exception kind and message the dump raises. -/
def dumps : JsonVal → Except (String × String) String
  | .ok v => .ok (serializeVal v)
  | .badKeys _ => .error ("TypeError", "keys must be str, int, float, bool or None")
  | .circular _ => .error ("ValueError", "Circular reference detected")

/-- What the classification checks of tracer.py lines 87-96 see of a value:
    a dict with bad keys or a self-referential container is an ordinary
    instance of its class - not a class object, `__class__` present. -/
def jsonToPyVal : JsonVal → PyVal
  | .ok v => v
  | .badKeys c => .obj c "<dict>"
  | .circular c => .obj c "<container>"

/-- The first bound argument whose dump raises, in binding order: the loop at
    tracer.py lines 116-122 builds one Argument per bound name and stops at
    the first raising `json.dumps`. -/
def firstDumpsError : List (String × JsonVal) → Option (String × String)
  | [] => none
  | (_, jv) :: rest =>
    match dumps jv with
    | .error e => some e
    | .ok _ => firstDumpsError rest

/-- Persisted effect of the entry phase when a bound argument's dump raises:
    the Call insert of tracer.py lines 99-111 was already committed and the
    call id pushed at line 113, but the raise at line 120 means the Argument
    commit at line 123 is never reached, so no Argument row persists and the
    stack stays un-popped. -/
def wrapperEnterArgsFail (funcId : Nat) (qualname : String)
    (pyArgs : List (String × PyVal)) (tid : Nat) (isCoro : Bool)
    (st : St) : St :=
  { st with
      calls := st.calls ++ [enterRow funcId qualname pyArgs tid isCoro st],
      nextCallId := st.nextCallId + 1,
      stack := st.nextCallId :: st.stack,
      clock := st.clock + 1,
      log := st.log ++ [.enterEv st.nextCallId st.stack.head?] }

/-- Outcome of a body whose return value is an arbitrary, possibly
    unserializable, Python value. -/
inductive BodyResJ where
  | ret (jv : JsonVal)
  | exc (ty msg : String)
  | fatal (ty : String)
deriving Repr, DecidableEq

/-- A body outcome of the serializable fragment, seen as a general one. -/
def bodyOfPy : BodyRes → BodyResJ
  | .ret v => .ret (.ok v)
  | .exc ty msg => .exc ty msg
  | .fatal ty => .fatal ty

/-- tracer.py lines 74-149 with the two `json.dumps` calls modeled as
    fallible.  Returns the outcome the caller observes, whether the wrapped
    body ran, and the state:
    * a raising dump of a bound argument (line 120) escapes `wrapper` after
      the Call insert and the push but before the Argument commit and before
      the body runs;
    * a raising dump of the return value (line 145) escapes the `else` branch
      before the commit at line 147 and the pop at line 148, so the caller
      receives the TypeError/ValueError instead of the result and the Call
      row keeps its null completion fields. -/
def wrapperCallJson (funcId : Nat) (qualname : String)
    (boundArgs : List (String × JsonVal)) (tid : Nat) (isCoro : Bool)
    (body : BodyResJ) (st : St) : BodyRes × Bool × St :=
  let pyArgs := boundArgs.map (fun p => (p.1, jsonToPyVal p.2))
  match firstDumpsError boundArgs with
  | some e => (.exc e.1 e.2, false,
      wrapperEnterArgsFail funcId qualname pyArgs tid isCoro st)
  | none =>
    let start := st.clock
    let (cid, st1) := wrapperEnter funcId qualname pyArgs tid isCoro st
    match body with
    | .exc ty msg => (.exc ty msg, true, wrapperExitExc cid ty msg start st1)
    | .fatal ty => (.fatal ty, true, st1)
    | .ret jv =>
      match dumps jv with
      | .ok _ => (.ret (jsonToPyVal jv), true,
          wrapperExitRet cid (jsonToPyVal jv) start st1)
      | .error e => (.exc e.1 e.2, true, st1)

theorem firstDumpsError_ok_map (pyArgs : List (String × PyVal)) :
    firstDumpsError (pyArgs.map (fun p => (p.1, JsonVal.ok p.2))) = none := by
  induction pyArgs with
  | nil => rfl
  | cons a t ih => simp [firstDumpsError, dumps, ih]

theorem jsonToPyVal_ok_map (pyArgs : List (String × PyVal)) :
    (pyArgs.map (fun p => (p.1, JsonVal.ok p.2))).map
        (fun p => (p.1, jsonToPyVal p.2)) = pyArgs := by
  induction pyArgs with
  | nil => rfl
  | cons a t ih =>
    simp only [List.map_cons]
    rw [ih]
    rfl

/-- C1 counterexample: outcome transparency fails on values `json.dumps`
    cannot serialize.  A callable that returns a self-referential container
    returns normally when unwrapped, but its wrapper raises
    `ValueError("Circular reference detected")` at tracer.py line 145 instead
    of returning the value; and a wrapped call whose bound argument is a dict
    with non-primitive keys raises `TypeError` at line 120 before the callable
    even runs. -/
theorem wrapper_transparency_counterexample :
    (wrapperCallJson 1 "f" [] 7 false (.ret (.circular "list")) emptySt).1
      = .exc "ValueError" "Circular reference detected"
    ∧ (wrapperCallJson 1 "f" [] 7 false (.ret (.circular "list")) emptySt).1
      ≠ .ret (jsonToPyVal (.circular "list"))
    ∧ (wrapperCallJson 1 "g" [("x", .badKeys "dict")] 7 false
        (.ret (.ok (.obj "int" "3"))) emptySt).1
      = .exc "TypeError" "keys must be str, int, float, bool or None"
    ∧ (wrapperCallJson 1 "g" [("x", .badKeys "dict")] 7 false
        (.ret (.ok (.obj "int" "3"))) emptySt).2.1 = false :=
  ⟨rfl, by decide, rfl, rfl⟩

/-- C1 (amended): the wrapper is outcome-transparent exactly on the
    serializable fragment.  When every bound argument and the return value
    serialize, the wrapper behaves as the fault-free recorder and delivers the
    callable's own outcome unchanged (identical return value, identical
    exception kind and message, fatal exceptions passed through).  When a
    bound argument's dump raises, the wrapper raises that TypeError/ValueError
    before the callable runs; when the return value's dump raises, the wrapper
    raises it instead of returning, after the callable ran. -/
theorem wrapper_outcome_with_serialization (funcId : Nat) (qualname : String)
    (boundArgs : List (String × JsonVal)) (tid : Nat) (isCoro : Bool)
    (st : St) :
    (∀ (pyArgs : List (String × PyVal)) (body : BodyRes),
      wrapperCallJson funcId qualname
          (pyArgs.map (fun p => (p.1, JsonVal.ok p.2))) tid isCoro
          (bodyOfPy body) st
        = ((wrapperCall funcId qualname pyArgs tid isCoro body st).1, true,
           (wrapperCall funcId qualname pyArgs tid isCoro body st).2))
    ∧ (∀ v : PyVal, firstDumpsError boundArgs = none →
        (wrapperCallJson funcId qualname boundArgs tid isCoro
          (.ret (.ok v)) st).1 = .ret v)
    ∧ (∀ ty msg : String, firstDumpsError boundArgs = none →
        (wrapperCallJson funcId qualname boundArgs tid isCoro
          (.exc ty msg) st).1 = .exc ty msg)
    ∧ (∀ (body : BodyResJ) (e : String × String),
        firstDumpsError boundArgs = some e →
        (wrapperCallJson funcId qualname boundArgs tid isCoro body st).1
          = .exc e.1 e.2
        ∧ (wrapperCallJson funcId qualname boundArgs tid isCoro body st).2.1
          = false)
    ∧ (∀ (jv : JsonVal) (e : String × String),
        firstDumpsError boundArgs = none → dumps jv = .error e →
        (wrapperCallJson funcId qualname boundArgs tid isCoro (.ret jv) st).1
          = .exc e.1 e.2
        ∧ (wrapperCallJson funcId qualname boundArgs tid isCoro (.ret jv) st).2.1
          = true) := by
  refine ⟨?_, ?_, ?_, ?_, ?_⟩
  · intro pyArgs body
    have hm := jsonToPyVal_ok_map pyArgs
    cases body with
    | ret v =>
      simp only [wrapperCallJson, bodyOfPy, firstDumpsError_ok_map, dumps, hm,
        wrapperCall]
      rfl
    | exc ty msg =>
      simp only [wrapperCallJson, bodyOfPy, firstDumpsError_ok_map, hm,
        wrapperCall]
    | fatal ty =>
      simp only [wrapperCallJson, bodyOfPy, firstDumpsError_ok_map, hm,
        wrapperCall]
  · intro v h
    simp [wrapperCallJson, h, dumps, jsonToPyVal]
  · intro ty msg h
    simp [wrapperCallJson, h]
  · intro body e h
    simp [wrapperCallJson, h]
  · intro jv e h hd
    simp [wrapperCallJson, h, hd]

/-- Witness for the amended C1 at concrete inputs: with a serializable
    argument, a serializable return comes back unchanged and an exception is
    re-raised unchanged. -/
theorem wrapper_outcome_with_serialization_witness :
    (wrapperCallJson 1 "f" [("x", JsonVal.ok (.obj "int" "5"))] 7 false
        (.ret (.ok (.obj "int" "7"))) emptySt).1 = .ret (.obj "int" "7")
    ∧ (wrapperCallJson 1 "f" [("x", JsonVal.ok (.obj "int" "5"))] 7 false
        (.exc "ValueError" "bad") emptySt).1 = .exc "ValueError" "bad" :=
  ⟨(wrapper_outcome_with_serialization 1 "f" [("x", JsonVal.ok (.obj "int" "5"))]
      7 false emptySt).2.1 (.obj "int" "7") rfl,
   (wrapper_outcome_with_serialization 1 "f" [("x", JsonVal.ok (.obj "int" "5"))]
      7 false emptySt).2.2.1 "ValueError" "bad" rfl⟩

end VibeTracer
